import Mathlib

/-!
Verification development for the ai-email-sorter repository.

The file shallowly embeds the decision logic of the repository:

* `Ai` — the classification/summarization helper `lib/ai.ts`
  (`cosineSimilarity`, `classifyByEmbeddings`, `chooseCategoryWithLLM`,
  `summarizeEmail`, `classifyEmail`).  Network calls to the AI provider are
  modelled by oracles: an embedding oracle mapping the request text to the
  provider's reply (`Except` error = thrown `postJson`/`detectProvider`
  error), and an LLM oracle indexed by the sequential call number.
* `Sync` — the ingestion route `POST /api/gmail/sync` (its per-message loop,
  the duplicate guard, and its local `classifyEmail` helper).
* `Unsub` — the batch route `POST /api/emails/unsubscribe`
  (`unsubscribeEmail` retry loop and the `POST` handler).
* `SpecModel` — the link-extraction based unsubscribe engine.  Its
  implementation is not present in the repository sources (the version-2
  route replaced it); the definitions there are modelled from the spec and
  are marked as such.

Real numbers stand in for JavaScript floats; rounding of IEEE doubles is not
modelled (the claims under study are about comparisons and control flow).
-/

namespace EmailSorter

/-- Case-insensitive prefix test on character lists (JS regexes with the `i`
flag compare letters case-insensitively). -/
def ciIsPrefixOf : List Char → List Char → Bool
  | [], _ => true
  | _ :: _, [] => false
  | p :: ps, c :: cs => (p.toLower == c.toLower) && ciIsPrefixOf ps cs

/-- Index of the first case-insensitive occurrence of `pat` in a character
list, if any: the position where a JS regex engine would start the match. -/
def findCI (pat : List Char) : List Char → Option Nat
  | [] => if ciIsPrefixOf pat [] then some 0 else none
  | c :: cs => if ciIsPrefixOf pat (c :: cs) then some 0 else (findCI pat cs).map (· + 1)

/-- Split on the JS separator regex `\r?\n` (used by `split(/\r?\n/)`):
a line break is a bare newline or a carriage return followed by a newline. -/
def splitRN : List Char → List (List Char)
  | [] => [[]]
  | '\r' :: '\n' :: rest => [] :: splitRN rest
  | '\n' :: rest => [] :: splitRN rest
  | c :: rest =>
    match splitRN rest with
    | [] => [[c]]
    | l :: ls => (c :: l) :: ls

/-- JS `String.prototype.trim()` on a character list: strip leading and
trailing whitespace (ASCII whitespace; the further Unicode space characters
JS would also strip play no role here). -/
def trimChars (s : List Char) : List Char :=
  ((s.dropWhile Char.isWhitespace).reverse.dropWhile Char.isWhitespace).reverse

/-- JS `trim()` as a `String` operation. -/
def jsTrim (s : String) : String := String.mk (trimChars s.data)

/-- JS `toLowerCase()` (ASCII lowering suffices for the names in play). -/
def lowerStr (s : String) : String := String.mk (s.data.map Char.toLower)

/-- `Array.prototype.join(sep)` on character lists. -/
def joinWith (sep : List Char) : List (List Char) → List Char
  | [] => []
  | [x] => x
  | x :: y :: rest => x ++ sep ++ joinWith sep (y :: rest)

/-- Numeric value of a decimal digit string, as `parseInt(s, 10)` computes it
for an all-digit input. -/
def digitsVal (ds : List Char) : Nat :=
  ds.foldl (fun n c => n * 10 + (c.toNat - '0'.toNat)) 0

/-- Leading decimal digits of a character list — the text captured by the JS
regex `/^(\d+)/` (empty when the regex does not match). -/
def leadingDigits (s : List Char) : List Char :=
  s.takeWhile (fun c => c.isDigit)

/-- First maximal run of decimal digits anywhere in the input — the text
captured by the JS regex `/(\d+)/`. -/
def firstDigitRun (s : List Char) : Option (List Char) :=
  match s.dropWhile (fun c => !c.isDigit) with
  | [] => none
  | c :: cs => some ((c :: cs).takeWhile (fun ch => ch.isDigit))

/-- The leading digits of the (trimmed) first line of a trimmed reply — the
text the first-line regex `/^(\d+)/` of the LLM reply parser captures. -/
def firstLineLeading (reply : String) : List Char :=
  leadingDigits (trimChars ((splitRN (trimChars reply.data)).headD []))

/-- A user-defined classification target (`lib/ai.ts` category shape
`{ id; name; description }`). -/
structure Category where
  id : String
  name : String
  description : String
deriving DecidableEq

namespace Ai

/-- Reply of one LLM chat call: `Except.error` models a thrown
`postJson`/`detectProvider` error, `none` models a response from which
`extractAssistantText` recovers no text, `some text` the assistant text.
The oracle is indexed by the sequential number of the chat call made by the
process, so that repeated calls are observable. -/
def LLMOracle : Type := Nat → Except String (Option String)

/-- Reply of the embeddings endpoint for a given input text:
`Except.error` models a thrown error (provider unconfigured, HTTP failure or
`extractEmbedding` returning null), `ok` the extracted vector.
`getEmbedding` is deterministic in its input text, so the in-process
category-embedding cache of `lib/ai.ts` (which only avoids repeat calls, never
changes a value) is value-transparent and not threaded here. -/
def EmbedOracle : Type := String → Except String (List ℝ)

/-- `cosineSimilarity` of `lib/ai.ts` (lines 191-209): trims both vectors to
the shorter length, returns 0 when either magnitude is zero, otherwise
dot / (√magA * √magB). -/
noncomputable def cosineSimilarity (a b : List ℝ) : ℝ :=
  let n := min a.length b.length
  let a2 := a.take n
  let b2 := b.take n
  let dot := (List.zipWith (fun x y => x * y) a2 b2).sum
  let magA := (a2.map (fun x => x * x)).sum
  let magB := (b2.map (fun x => x * x)).sum
  if magA = 0 ∨ magB = 0 then 0 else dot / (Real.sqrt magA * Real.sqrt magB)

/-- One entry of the `scores` array: category id paired with its similarity. -/
def ScoreEntry : Type := String × ℝ

/-- Stable insertion used to model `scores.sort((a, b) => b.score - a.score)`:
JavaScript `Array.prototype.sort` is stable, so an element passes only the
strictly greater scores and stays before equal ones. -/
noncomputable def insertDesc (x : String × ℝ) : List (String × ℝ) → List (String × ℝ)
  | [] => [x]
  | y :: ys => if x.2 < y.2 then y :: insertDesc x ys else x :: y :: ys

/-- Stable descending sort by score, modelling the in-place
`scores.sort((a, b) => b.score - a.score)` of `classifyByEmbeddings`. -/
noncomputable def sortDesc : List (String × ℝ) → List (String × ℝ)
  | [] => []
  | x :: xs => insertDesc x (sortDesc xs)

/-- The per-category scoring loop of `classifyByEmbeddings` (lines 246-251):
for each category, embed `"{name}\n\n{description}"` and score it against the
email embedding; a failed embedding call propagates as a thrown error. -/
noncomputable def computeScores (embed : EmbedOracle) (emailEmb : List ℝ) :
    List Category → Except String (List (String × ℝ))
  | [] => .ok []
  | c :: cs =>
    match embed (c.name ++ "\n\n" ++ c.description) with
    | .error e => .error e
    | .ok catEmb =>
      match computeScores embed emailEmb cs with
      | .error e => .error e
      | .ok rest => .ok ((c.id, cosineSimilarity emailEmb catEmb) :: rest)

/-- Result shape of `classifyByEmbeddings`:
`{ categoryId; scores; topScore }` (the returned `scores` array is the sorted
one, since the JS sort is in place). -/
structure EmbedStage where
  categoryId : Option String
  scores : List (String × ℝ)
  topScore : Option ℝ

/-- `classifyByEmbeddings` of `lib/ai.ts` (lines 233-259): empty category
list short-circuits; otherwise embed the email, score every category, sort
descending and accept the top category iff its score reaches `threshold`. -/
noncomputable def classifyByEmbeddings (embed : EmbedOracle) (emailText : String)
    (cats : List Category) (threshold : ℝ) : Except String EmbedStage :=
  if cats.isEmpty then .ok ⟨none, [], none⟩
  else
    match embed emailText with
    | .error e => .error e
    | .ok emailEmb =>
      match computeScores embed emailEmb cats with
      | .error e => .error e
      | .ok scores =>
        match sortDesc scores with
        | [] => .ok ⟨none, [], none⟩
        | top :: restS =>
          .ok ⟨if threshold ≤ top.2 then some top.1 else none, top :: restS, some top.2⟩

/-- Result shape of `chooseCategoryWithLLM`: `{ categoryId; reason }`. -/
structure ChooseResult where
  categoryId : Option String
  reason : Option String
deriving DecidableEq

/-- The reply-parsing tail of `chooseCategoryWithLLM` (lines 297-310):
split the trimmed reply on `\r?\n`; look for a leading integer on the trimmed
first line (`/^(\d+)/`); if absent, scan the whole reply for any integer
(`/(\d+)/`); `0`, an out-of-range number or no number at all yield a null
category id; a valid number `n` selects the `n`-th listed category. -/
def parseChoice (assistant : String) (cats : List Category) : ChooseResult :=
  let trimmed := jsTrim assistant
  let lines := splitRN trimmed.data
  let firstLine := String.mk (lines.headD [])
  let restJoin := jsTrim (String.mk (joinWith [' '] lines.tail))
  let ld := leadingDigits (trimChars firstLine.data)
  if ld.isEmpty then
    match firstDigitRun assistant.data with
    | none => ⟨none, some trimmed⟩
    | some ds =>
      let idx := digitsVal ds
      if idx ≤ 0 ∨ idx > cats.length then ⟨none, some trimmed⟩
      else ⟨(cats.get? (idx - 1)).map (fun c => c.id),
            some (if restJoin = "" then trimmed else restJoin)⟩
  else
    let idx := digitsVal ld
    if idx = 0 then ⟨none, some (if restJoin = "" then "model returned 0" else restJoin)⟩
    else if idx < 1 ∨ idx > cats.length then ⟨none, some trimmed⟩
    else ⟨(cats.get? (idx - 1)).map (fun c => c.id),
          if restJoin = "" then none else some restJoin⟩

/-- `chooseCategoryWithLLM` of `lib/ai.ts` (lines 265-311): empty category
list returns a null id without any provider call; otherwise one chat call is
made (a thrown `detectProvider`/`postJson` error propagates), a text-less
response yields a null id, and a textual reply is parsed by `parseChoice`. -/
def chooseCategoryWithLLM (oracle : LLMOracle) (call : Nat) (cats : List Category) :
    Except String ChooseResult :=
  if cats.isEmpty then .ok ⟨none, some "no categories provided"⟩
  else
    match oracle call with
    | .error e => .error e
    | .ok none => .ok ⟨none, some "no response from model"⟩
    | .ok (some assistant) => .ok (parseChoice assistant cats)

/-- Whether a position of the input starts a match of the terminator
alternation `(?:\nActions:|\z)` of the summary regex of `summarizeEmail`.
In a JavaScript regex (no `u` flag) `\z` is an identity escape matching the
letter `z`, and with the `i` flag it also matches `Z`. -/
def isTermAt (s : List Char) (q : Nat) : Bool :=
  ciIsPrefixOf ("\nActions:".data) (s.drop q) ||
  (match s.drop q with
   | c :: _ => c.toLower == 'z'
   | [] => false)

/-- Earliest terminator position at or after `start` (the lazy group
`([\s\S]*?)` grows until the terminator first matches). -/
def findTermIdx (s : List Char) (start : Nat) : Option Nat :=
  ((List.range s.length).filter (fun q => decide (start ≤ q) && isTermAt s q)).head?

/-- Substring of a character list between two positions. -/
def sliceChars (s : List Char) (a b : Nat) : List Char :=
  (s.drop a).take (b - a)

/-- Backtracking of the greedy `\s*` in front of the lazy capture group:
the engine first lets `\s*` take the whole whitespace run (`w` characters)
and, if no terminator occurs after it, gives characters back one at a time. -/
def backtrackGroup (s : List Char) (e : Nat) : Nat → Option (List Char)
  | 0 =>
    match findTermIdx s e with
    | some p => some (sliceChars s e p)
    | none => none
  | w + 1 =>
    match findTermIdx s (e + w + 1) with
    | some p => some (sliceChars s (e + w + 1) p)
    | none => backtrackGroup s e w

/-- Capture of the summary regex
`/Summary:\s*([\s\S]*?)(?:\nActions:|\z)/i` of `summarizeEmail` under
JavaScript semantics: find the first case-insensitive `"Summary:"`, skip the
whitespace run greedily (with backtracking) and capture lazily up to the
first `"\nActions:"` or letter `z`/`Z`.  `none` when the regex fails. -/
def summaryGroup (s : List Char) : Option (List Char) :=
  match findCI ("Summary:".data) s with
  | none => none
  | some i =>
    let e := i + 8
    let w := ((s.drop e).takeWhile (fun c => c.isWhitespace)).length
    backtrackGroup s e w

/-- Capture of `/Actions:\s*([\s\S]*)/i`, modulo the trailing `.trim()`
applied by the caller (the greedy `\s*` only removes leading whitespace that
the trim would remove anyway). -/
def actionsTail (s : List Char) : Option (List Char) :=
  match findCI ("Actions:".data) s with
  | none => none
  | some i => some (s.drop (i + 8))

/-- `line.replace(/^\s*[-*]\s*/, '')`: strip one leading bullet, if any. -/
def stripBullet (l : List Char) : List Char :=
  match l.dropWhile (fun c => c.isWhitespace) with
  | c :: cs => if c == '-' || c == '*' then cs.dropWhile (fun c2 => c2.isWhitespace) else l
  | [] => l

/-- Result shape of `summarizeEmail`: `{ summary; actions }`. -/
structure SummaryResult where
  summary : String
  actions : List String
deriving DecidableEq

/-- `summarizeEmail` of `lib/ai.ts` (lines 317-351), with the single chat
call it makes folded into `oracle`: a thrown call propagates; a text-less
reply throws `"No summary returned from LLM"`; otherwise the reply is parsed
with the summary and actions regexes, the actions section is split into
trimmed de-bulleted non-empty lines, and an absent or empty actions section
gives an empty list. -/
def summarizeEmail (oracle : Except String (Option String)) : Except String SummaryResult :=
  match oracle with
  | .error e => .error e
  | .ok none => .error "No summary returned from LLM"
  | .ok (some assistant) =>
    let summary :=
      match summaryGroup assistant.data with
      | some g => jsTrim (String.mk g)
      | none => jsTrim assistant
    let actionsRaw :=
      match actionsTail assistant.data with
      | some t => jsTrim (String.mk t)
      | none => ""
    let actions :=
      if actionsRaw = "" then []
      else ((splitRN actionsRaw.data).map (fun l => jsTrim (String.mk (stripBullet l)))).filter
        (fun l => l != "")
    .ok ⟨summary, actions⟩

/-- JavaScript truthiness of a `string | null` value: `null` and the empty
string are falsy. -/
def truthy : Option String → Bool
  | none => false
  | some s => s != ""

/-- Result shape of the high-level `classifyEmail`:
`{ categoryId; method; scores?; reason? }`. -/
structure ClassifyResult where
  categoryId : Option String
  method : String
  scores : Option (List (String × ℝ))
  reason : Option String

/-- The `catch` branch of `classifyEmail` (lines 381-389): one more
`chooseCategoryWithLLM` call as a last resort; if it returns, its category id
is reported with method `llm`; if it throws too, the result is a null id with
method `none` (the reason carries the second error's text). -/
def lastResort (llm : LLMOracle) (call : Nat) (cats : List Category) : ClassifyResult :=
  match chooseCategoryWithLLM llm call cats with
  | .ok f => ⟨f.categoryId, "llm", none, f.reason⟩
  | .error e2 => ⟨none, "none", none, some e2⟩

/-- The stage-2 path of `classifyEmail` (lines 376-380): when stage 1
produced no (truthy) category id, call `chooseCategoryWithLLM` (call number
0); a truthy id is returned with method `llm`, a clean null id returns
method `none` immediately, and a thrown call falls to the `catch` branch
whose last-resort call is then the process's second chat call (number 1). -/
def llmFallbackResult (llm : LLMOracle) (cats : List Category) : ClassifyResult :=
  match chooseCategoryWithLLM llm 0 cats with
  | .ok l =>
    if truthy l.categoryId then ⟨l.categoryId, "llm", none, l.reason⟩
    else ⟨none, "none", none, some (l.reason.getD "no match")⟩
  | .error _ => lastResort llm 1 cats

/-- `classifyEmail` of `lib/ai.ts` (lines 358-390): threshold defaults to
0.72; stage 1 is `classifyByEmbeddings`; a truthy stage-1 category id is
returned with method `embeddings`; otherwise the LLM stage runs; a stage-1
thrown error falls to the `catch` branch, whose last-resort chat call is then
the first chat call of the process (number 0). -/
noncomputable def classifyEmail (embed : EmbedOracle) (llm : LLMOracle) (emailText : String)
    (cats : List Category) (thresholdOpt : Option ℝ) : ClassifyResult :=
  let threshold := thresholdOpt.getD 0.72
  match classifyByEmbeddings embed emailText cats threshold with
  | .ok er =>
    if truthy er.categoryId then ⟨er.categoryId, "embeddings", some er.scores, none⟩
    else llmFallbackResult llm cats
  | .error _ => lastResort llm 0 cats

end Ai

namespace Sync

/-- One MIME part of a fetched Gmail message; `data` holds the decoded body
text (base64url decoding is a bijection, so the oracle supplies the decoded
form directly). -/
structure MsgPart where
  mimeType : String
  data : Option String
deriving DecidableEq

/-- A fetched full Gmail message, as the sync route reads it: its header
list, the top-level body data and the MIME parts.  A missing parts array and
an empty one are indistinguishable to the route (an empty array still finds
no `text/plain` part), so both are the empty list. -/
structure FullMessage where
  headers : List (String × String)
  bodyData : Option String
  parts : List MsgPart
deriving DecidableEq

/-- `headers.find(h => h.name === nm)?.value || dflt` of the sync route. -/
def headerValue (hs : List (String × String)) (nm dflt : String) : String :=
  match hs.find? (fun h => h.1 == nm) with
  | some h => h.2
  | none => dflt

/-- The `else if (emailData.payload?.parts)` branch of the body extraction:
find the first `text/plain` part and use its data when truthy. -/
def extractBodyParts (parts : List MsgPart) : String :=
  match parts.find? (fun p => p.mimeType == "text/plain") with
  | some p =>
    match p.data with
    | some d => d
    | none => ""
  | none => ""

/-- Body extraction of the sync route (lines 199-210 of the route): use the
top-level body data when truthy (the empty string is falsy in JS), otherwise
look for a `text/plain` part. -/
def extractBody (fm : FullMessage) : String :=
  match fm.bodyData with
  | some d => if d == "" then extractBodyParts fm.parts else d
  | none => extractBodyParts fm.parts

/-- Outcome of the AI call made by the sync route's local `classifyEmail`:
`noKey` = neither provider key configured, `failed` = the fetch threw or the
response was not OK, `noContent` = no `choices[0].message.content`,
`badJson` = `JSON.parse(content)` (or reading `parsed.category`) threw, and
`ok category summary` = a parsed reply (`summary` is `none` when the parsed
JSON has no summary field). -/
inductive AIReply where
  | noKey : AIReply
  | failed : AIReply
  | noContent : AIReply
  | badJson : AIReply
  | ok : String → Option String → AIReply

/-- The local `classifyEmail` helper of `POST /api/gmail/sync`
(src/unnamed/part_002 lines 334-439).  Every failure branch — no key, failed
call, unusable content, unparsable reply — returns the fallback pair
`(categories[0].id, "Email from {from}: {subject}")`; a parsed reply matches
the category by case-insensitive name and falls back to `categories[0].id`
when no name matches.  `cats.head?` models `categories[0]` (the call site
guarantees a non-empty list).  The email body only feeds the prompt, which
lives inside the oracle. -/
def classifyEmail (reply : AIReply) (subject : String) (_body : String) (fromAddr : String)
    (cats : List Category) : Option String × String :=
  let fallback : Option String × String :=
    ((cats.head?).map (fun c => c.id), "Email from " ++ fromAddr ++ ": " ++ subject)
  match reply with
  | .noKey => fallback
  | .failed => fallback
  | .noContent => fallback
  | .badJson => fallback
  | .ok category summary =>
    let catId :=
      match cats.find? (fun c => lowerStr c.name == lowerStr category) with
      | some c => some c.id
      | none => (cats.head?).map (fun c => c.id)
    let summ :=
      match summary with
      | some s => if s == "" then "Email from " ++ fromAddr ++ ": " ++ subject else s
      | none => "Email from " ++ fromAddr ++ ": " ++ subject
    (catId, summ)

/-- A stored `emails` row, with the fields the sync route writes (the date
column is elided: the route only parses and reformats the Date header). -/
structure EmailRow where
  google_account_id : String
  gmail_message_id : String
  category_id : String
  subject : String
  from_email : String
  raw_text : String
  summarized_text : String
deriving DecidableEq

/-- Environment of one sync run: the synced account's id and the Gmail
full-message fetch, with `none` modelling a non-OK fetch response. -/
structure SyncEnv where
  accountId : String
  fetchMsg : String → Option FullMessage

/-- Per-message outcome of the sync loop: skipped duplicate, failed full
fetch, successful import, or a failed insert (recorded as an error string in
the route). -/
inductive StepOutcome where
  | skipped : StepOutcome
  | fetchFailed : StepOutcome
  | imported : StepOutcome
  | insertFailed : StepOutcome
deriving DecidableEq

/-- Number of stored rows carrying a given Gmail message id — what the
duplicate-guard query `.eq("gmail_message_id", msg.id)` matches. -/
def msgCount (S : List EmailRow) (m : String) : Nat :=
  (S.filter (fun r => r.gmail_message_id == m)).length

/-- Whether a row with the given (account id, message id) pair is stored —
the pair on which the schema's `UNIQUE(google_account_id, gmail_message_id)`
constraint rejects an insert. -/
def pairExists (S : List EmailRow) (acct m : String) : Bool :=
  S.any (fun r => r.google_account_id == acct && r.gmail_message_id == m)

/-- The `emailRecord` object the route builds for one fetched message
(route lines 189-244): extracted subject/sender/body, the classification
outcome — the AI helper when at least one non-Inbox category exists,
otherwise the Inbox id with the synthesized summary — and the body capped at
10000 characters (`body.substring(0, 10000)`). -/
def builtRow (env : SyncEnv) (ai : String → AIReply) (classCats : List Category)
    (inbox : Category) (m : String) (fm : FullMessage) : EmailRow :=
  let subject := headerValue fm.headers "Subject" "No Subject"
  let fromAddr := headerValue fm.headers "From" "Unknown"
  let body := extractBody fm
  let pair :=
    if classCats.length > 0 then classifyEmail (ai m) subject body fromAddr classCats
    else (some inbox.id, "Email from " ++ fromAddr ++ ": " ++ subject)
  ⟨env.accountId, m, (pair.1).getD "", subject, fromAddr,
    String.mk (body.data.take 10000), pair.2⟩

/-- One iteration of the sync route's per-message loop (lines 157-297):
duplicate guard first (`.single()` yields a row — and hence a skip — exactly
when one stored row matches the message id), then the full-message fetch and
the record construction; the insert is rejected by the unique constraint when
the (account, message) pair is already stored.  Archiving is fire-and-forget
and changes no modelled state. -/
def step (env : SyncEnv) (ai : String → AIReply) (classCats : List Category) (inbox : Category)
    (S : List EmailRow) (m : String) : List EmailRow × StepOutcome :=
  if msgCount S m = 1 then (S, .skipped)
  else
    match env.fetchMsg m with
    | none => (S, .fetchFailed)
    | some fm =>
      if pairExists S env.accountId m then (S, .insertFailed)
      else (S ++ [builtRow env ai classCats inbox m fm], .imported)

/-- The sync route's loop over the fetched message page, returning the final
storage and the `imported` counter. -/
def runSync (env : SyncEnv) (ai : String → AIReply) (classCats : List Category)
    (inbox : Category) : List EmailRow → List String → List EmailRow × Nat
  | S, [] => (S, 0)
  | S, m :: ms =>
    let r1 := step env ai classCats inbox S m
    let r2 := runSync env ai classCats inbox r1.1 ms
    (r2.1, (if r1.2 = .imported then 1 else 0) + r2.2)

/-- The route's Inbox resolution (lines 76-102): the first stored category
named "inbox" case-insensitively, else a freshly created Inbox category. -/
def resolveInbox (userCats : List Category) (newId : String) : Category :=
  match userCats.find? (fun c => lowerStr c.name == "inbox") with
  | some c => c
  | none => ⟨newId, "Inbox", "Uncategorized emails and new imports"⟩

/-- `allCategories` of the route (lines 104-111): the user's categories plus
the resolved Inbox when its id is not already present. -/
def allCatsOf (userCats : List Category) (newId : String) : List Category :=
  let inbox := resolveInbox userCats newId
  if userCats.any (fun c => c.id == inbox.id) then userCats else userCats ++ [inbox]

/-- `classificationCategories` of the route (lines 113-116): every category
whose name is not "inbox" case-insensitively. -/
def classificationCategories (allCats : List Category) : List Category :=
  allCats.filter (fun c => !(lowerStr c.name == "inbox"))

/-- Storage well-formedness maintained by the sync route (the only writer of
`emails` rows): distinct rows carry distinct Gmail message ids.  On every
state satisfying it, the message-id-only duplicate query of the route and the
spec's (mailbox id, message id) pair check coincide. -/
def Inv (S : List EmailRow) : Prop :=
  S.Pairwise (fun a b => a.gmail_message_id ≠ b.gmail_message_id)

/-- State a message is left in after its step of a sync run: exactly one
stored row matches it (the guard will skip it), or its full fetch fails (a
re-run records the same fetch error), or its (account, message) pair is
stored (a re-run's insert is rejected).  In each case a re-run imports
nothing for this message and leaves storage unchanged. -/
def goodAfter (env : SyncEnv) (S : List EmailRow) (m : String) : Prop :=
  msgCount S m = 1 ∨ env.fetchMsg m = none ∨ pairExists S env.accountId m = true

end Sync

namespace Unsub

/-- `VERSION.FLAGS.MAX_BATCH_SIZE` of version.ts. -/
def BATCH_SIZE : Nat := 10

/-- `VERSION.FLAGS.RETRY_ATTEMPTS` of version.ts. -/
def MAX_RETRIES : Nat := 3

/-- A joined `google_accounts` record as the unsubscribe route selects it. -/
structure GAcct where
  id : String
  email : String
deriving DecidableEq

/-- A joined `emails` row as the unsubscribe route selects it (`id`,
`gmail_message_id`, `subject`, `google_accounts`). -/
structure URow where
  id : String
  gmail_message_id : String
  subject : String
  google_accounts : Option GAcct
deriving DecidableEq

/-- Per-email result entry (`UnsubscribeResult` of the route). -/
structure UnsubResult where
  emailId : String
  success : Bool
  message : String
  retries : Option Nat
deriving DecidableEq

/-- Outcome of one try of `unsubscribeEmail`'s retry loop: either some Gmail
call of the attempt threw (the `catch` runs, with the error's message), or
the attempt ran through with the given `List-Unsubscribe`-header presence.
The `unsubscribe_attempts` log writes return their errors as values and do
not affect control flow, so they carry no state here. -/
inductive AttemptOutcome where
  | throws : String → AttemptOutcome
  | completes : Bool → AttemptOutcome

/-- The `while (retries < MAX_RETRIES)` loop of `unsubscribeEmail`
(route lines 23-147), structured on the remaining iterations: a completed
attempt reports success (via the header or the spam-marking fallback); a
throw increments `retries` and either records the terminal failure at the
bound or retries; an exhausted loop reports "Maximum retries exceeded". -/
def unsubLoop (att : Nat → AttemptOutcome) (emailId : String) : Nat → Nat → UnsubResult
  | retries, 0 => ⟨emailId, false, "Maximum retries exceeded", some retries⟩
  | retries, fuel + 1 =>
    match att retries with
    | .completes hasLU =>
      ⟨emailId, true,
        if hasLU then "Unsubscribed via Gmail API" else "Marked as spam (no unsubscribe header)",
        some retries⟩
    | .throws msg =>
      if retries + 1 = MAX_RETRIES then
        ⟨emailId, false, "Failed after " ++ toString (retries + 1) ++ " attempts: " ++ msg,
          some (retries + 1)⟩
      else unsubLoop att emailId (retries + 1) fuel

/-- `unsubscribeEmail` of the route: run the retry loop from zero retries. -/
def unsubscribeEmail (att : Nat → AttemptOutcome) (emailId : String) : UnsubResult :=
  unsubLoop att emailId 0 MAX_RETRIES

/-- Environment of one unsubscribe batch call: the per-batch email lookup
(`Except.error` = a storage error, which the route turns into a thrown
exception), per-account authentication (`getGoogleClient`, `Except.error` =
a thrown credential error), and the per-email per-try Gmail outcome. -/
structure UEnv where
  fetchEmails : List String → Except String (List URow)
  auth : String → Except String Unit
  attempt : String → Nat → AttemptOutcome

/-- The `reduce` grouping emails by Google account (route lines 216-236):
rows without a joined account become skipped detail entries in row order;
the remaining rows are grouped under their account in first-appearance
order (JS object insertion order). -/
def groupByAccount (rows : List URow) : List (GAcct × List URow) × List UnsubResult :=
  rows.foldl
    (fun acc row =>
      match row.google_accounts with
      | none => (acc.1, acc.2 ++ [⟨row.id, false, "No associated Google account", none⟩])
      | some a =>
        if acc.1.any (fun g => g.1.id == a.id) then
          (acc.1.map (fun g => if g.1.id == a.id then (g.1, g.2 ++ [row]) else g), acc.2)
        else (acc.1 ++ [(a, [row])], acc.2))
    ([], [])

/-- Per-account processing (route lines 239-269): a thrown
`getGoogleClient` marks every email of the account failed with an
"Account error:" message under the 200 response; otherwise each email runs
`unsubscribeEmail` (the `Promise.all` preserves order). -/
def processAccount (env : UEnv) (a : GAcct) (emails : List URow) : List UnsubResult :=
  match env.auth a.id with
  | .error e => emails.map (fun em => ⟨em.id, false, "Account error: " ++ e, none⟩)
  | .ok _ => emails.map (fun em => unsubscribeEmail (env.attempt em.id) em.id)

/-- One batch iteration (route lines 178-271), producing
(successful, failed, skipped, details) or propagating a thrown storage
error: an errored email lookup throws; an empty lookup marks the whole chunk
"Email not found"; otherwise rows are grouped and processed per account. -/
def processChunk (env : UEnv) (chunk : List String) :
    Except String (Nat × Nat × Nat × List UnsubResult) :=
  match env.fetchEmails chunk with
  | .error e => .error ("Failed to fetch emails: " ++ e)
  | .ok emails =>
    if emails.isEmpty then
      .ok (0, 0, chunk.length, chunk.map (fun eid => ⟨eid, false, "Email not found", none⟩))
    else
      let g := groupByAccount emails
      let accountResults := (g.1.map (fun p => processAccount env p.1 p.2)).flatten
      let details := g.2 ++ accountResults
      let succ := (accountResults.filter (fun r => r.success)).length
      let fail := (accountResults.filter (fun r => !r.success)).length
      .ok (succ, fail, g.2.length, details)

/-- Recursion core of the id-list chunking, structurally recursive on a fuel
bounded below by the list length (each loop iteration consumes ten ids, so
the fuel never runs out before the list does). -/
def chunks10Go : Nat → List String → List (List String)
  | _, [] => []
  | 0, _ :: _ => []
  | fuel + 1, x :: xs => ((x :: xs).take 10) :: chunks10Go fuel ((x :: xs).drop 10)

/-- Chunking of the id list in strides of `BATCH_SIZE = 10`
(`for (let i = 0; i < emailIds.length; i += BATCH_SIZE)`). -/
def chunks10 (l : List String) : List (List String) := chunks10Go l.length l

/-- Folding the chunk results in order, as the route's mutable `results`
accumulator does; a thrown chunk aborts the loop. -/
def runChunks (env : UEnv) : List (List String) → Except String (Nat × Nat × Nat × List UnsubResult)
  | [] => .ok (0, 0, 0, [])
  | c :: cs =>
    match processChunk env c with
    | .error e => .error e
    | .ok r =>
      match runChunks env cs with
      | .error e => .error e
      | .ok r2 => .ok (r.1 + r2.1, r.2.1 + r2.2.1, r.2.2.1 + r2.2.2.1, r.2.2.2 ++ r2.2.2.2)

/-- Parsed state of the request body: `badJson` = `request.json()` threw,
`notArray` = the `emailIds` field is not an array, `arr` = an id array. -/
inductive UBody where
  | badJson : UBody
  | notArray : UBody
  | arr : List String → UBody

/-- Aggregate results object returned with HTTP 200. -/
structure Agg where
  successful : Nat
  failed : Nat
  skipped : Nat
  total : Nat
  details : List UnsubResult
deriving DecidableEq

/-- Response of the route: a JSON error with its HTTP status, or the
aggregate results (sent with the default status 200). -/
inductive UResp where
  | errResp : Nat → UResp
  | okResp : Agg → UResp
deriving DecidableEq

/-- HTTP status of a response (`NextResponse.json(results)` defaults to
200). -/
def UResp.status : UResp → Nat
  | .errResp s => s
  | .okResp _ => 200

/-- `POST /api/emails/unsubscribe` (route lines 150-285): a thrown body
parse reaches the outer catch (500); a non-array or empty `emailIds` fails
fast with 400; otherwise chunks are processed in order, a thrown chunk
(storage error) reaches the outer catch (500), and a completed loop returns
the aggregate with HTTP 200 — `total` is set to the id count up front. -/
def POSTunsub (env : UEnv) (body : UBody) : UResp :=
  match body with
  | .badJson => .errResp 500
  | .notArray => .errResp 400
  | .arr ids =>
    if ids.isEmpty then .errResp 400
    else
      match runChunks env (chunks10 ids) with
      | .error _ => .errResp 500
      | .ok r => .okResp ⟨r.1, r.2.1, r.2.2.1, ids.length, r.2.2.2⟩

end Unsub

namespace SpecModel

/-- Modelled from the spec: the repository's link-extraction unsubscribe
engine (spec sections 4.1 and 4.5) is absent from the sources — version.ts
records that the Playwright automation of feature version 1.0.0 was removed
in 2.0.0, and only its tests and docs remain — so the Link Extractor's URL
scheme parse is defined from the spec's words: a URL "parses" when it starts
with a letter-led scheme token followed by a colon; the scheme is returned
lowercased. -/
def schemeOf (u : String) : Option String :=
  match u.data with
  | [] => none
  | c :: _ =>
    if c.isAlpha then
      let run := u.data.takeWhile
        (fun ch => ch.isAlpha || ch.isDigit || ch == '+' || ch == '-' || ch == '.')
      match u.data.drop run.length with
      | ':' :: _ => some (String.mk (run.map Char.toLower))
      | _ => none
    else none

/-- Modelled from the spec: hostname of a parsed URL — the authority text
after `"//"` up to the first delimiter.  `none` when the URL has no
authority component. -/
def hostOf (u : String) : Option String :=
  match schemeOf u with
  | none => none
  | some sch =>
    match u.data.drop (sch.length + 1) with
    | '/' :: '/' :: r =>
      some (String.mk (r.takeWhile
        (fun ch => !(ch == '/') && !(ch == '?') && !(ch == '#') && !(ch == ':'))))
    | _ => none

/-- Modelled from the spec (section 4.1): the security filter applied to
every candidate before it is returned — the URL must parse, its scheme must
be `http` or `https`, and its hostname must be non-empty; everything else
(including `javascript:`, `data:`, `file:`, `vbscript:`) is rejected. -/
def sanitizeUrl (u : String) : Option String :=
  match schemeOf u with
  | none => none
  | some sch =>
    if sch == "http" || sch == "https" then
      match hostOf u with
      | some h => if h == "" then none else some u
      | none => none
    else none

/-- Whether an accepted candidate uses the `https` scheme. -/
def isHttpsUrl (u : String) : Bool := schemeOf u == some "https"

/-- Modelled from the spec: among the valid candidates of one priority tier,
prefer `https` over `http`; otherwise the first candidate wins. -/
def pickPreferHttps (cands : List String) : Option String :=
  match cands.find? isHttpsUrl with
  | some u => some u
  | none => cands.head?

/-- Modelled from the spec: the `<...>`-delimited tokens of a
`List-Unsubscribe` header value, in order. -/
def angleTokens : List Char → List String
  | [] => []
  | '<' :: rest =>
    let tok := rest.takeWhile (fun c => !(c == '>'))
    if tok.length = rest.length then []
    else String.mk tok :: angleTokens (rest.drop (tok.length + 1))
  | _ :: rest => angleTokens rest
termination_by l => l.length
decreasing_by
  all_goals simp only [List.length_drop, List.length_cons]
  all_goals omega

/-- Modelled from the spec: the stored email content the Link Extractor
consumes — the raw `List-Unsubscribe` header value when present, the HTML
body's anchors as (href, visible text) pairs in document order, and the bare
URLs of the plain-text body in order. -/
structure EmailContent where
  listUnsubscribe : Option String
  anchors : List (String × String)
  plainUrls : List String

/-- Case-insensitive substring test. -/
def containsCI (s pat : String) : Bool := (findCI pat.data s.data).isSome

/-- Modelled from the spec (tier 2): anchors whose visible text matches
"unsubscribe", "opt out"/"opt-out" or "manage preferences"/"email
preferences" case-insensitively. -/
def textMatchesTier2 (t : String) : Bool :=
  containsCI t "unsubscribe" || containsCI t "opt out" || containsCI t "opt-out" ||
  containsCI t "manage preferences" || containsCI t "email preferences"

/-- Modelled from the spec (tier 3): hrefs containing "unsubscribe" or a
near-synonym. -/
def hrefMatchesTier3 (h : String) : Bool :=
  containsCI h "unsubscribe" || containsCI h "unsub" || containsCI h "opt-out" ||
  containsCI h "remove"

/-- Tier 1 candidates: sanitized header tokens. -/
def tier1 (c : EmailContent) : List String :=
  match c.listUnsubscribe with
  | none => []
  | some hdr => (angleTokens hdr.data).filterMap sanitizeUrl

/-- Tier 2 candidates: sanitized hrefs of text-matching anchors. -/
def tier2 (c : EmailContent) : List String :=
  ((c.anchors.filter (fun a => textMatchesTier2 a.2)).map Prod.fst).filterMap sanitizeUrl

/-- Tier 3 candidates: sanitized matching hrefs. -/
def tier3 (c : EmailContent) : List String :=
  ((c.anchors.filter (fun a => hrefMatchesTier3 a.1)).map Prod.fst).filterMap sanitizeUrl

/-- Tier 4 candidates: sanitized plain-text URLs containing "unsubscribe". -/
def tier4 (c : EmailContent) : List String :=
  (c.plainUrls.filter (fun u => containsCI u "unsubscribe")).filterMap sanitizeUrl

/-- Modelled from the spec (section 4.1): the Link Extractor — the four
extraction tiers in priority order, first surviving tier wins, the security
filter applied to every candidate, https preferred within a tier. -/
def linkExtractor (c : EmailContent) : Option String :=
  match pickPreferHttps (tier1 c) with
  | some u => some u
  | none =>
    match pickPreferHttps (tier2 c) with
    | some u => some u
    | none =>
      match pickPreferHttps (tier3 c) with
      | some u => some u
      | none => pickPreferHttps (tier4 c)

/-- Per-item terminal status of the unsubscribe engine (spec section 4.5). -/
inductive UStatus where
  | success : UStatus
  | failed : UStatus
  | no_link : UStatus
deriving DecidableEq

/-- Modelled from the spec (section 4.5, steps 1-5): per-email procedure —
obtain a target via the Link Extractor (which itself prefers the
`List-Unsubscribe` header); no target gives the distinct `no_link` outcome
without opening a browser; with a target, the browser interaction (steps
3-5, external pages) decides `success` or `failed` and is abstracted as an
oracle on the navigated URL. -/
def unsubscribeStep (browse : String → UStatus) (c : EmailContent) : UStatus :=
  match linkExtractor c with
  | none => .no_link
  | some url => browse url

/-- Modelled from the spec: the batch processes every selected email
sequentially, recording one terminal outcome each; no outcome aborts the
batch. -/
def unsubscribeBatch (browse : String → UStatus) (cs : List EmailContent) : List UStatus :=
  cs.map (unsubscribeStep browse)

end SpecModel

/-! Concrete fixtures used to instantiate the theorems below. -/

/-- A fetched Gmail message with subject "hi" from "alice@x". -/
def c1Msg : Sync.FullMessage := ⟨[("Subject", "hi"), ("From", "alice@x")], some "hello body", []⟩

/-- Sync environment for account "acct-1" whose mailbox serves message "m1". -/
def c1Env : Sync.SyncEnv := ⟨"acct-1", fun m => if m = "m1" then some c1Msg else none⟩

/-- An AI oracle whose call always fails (non-OK provider response). -/
def c1Ai : String → Sync.AIReply := fun _ => .failed

/-- A non-Inbox user category. -/
def workCat : Category := ⟨"cat-work", "Work", "work stuff"⟩

/-- The resolved Inbox category of the account. -/
def inboxCat : Category := ⟨"cat-inbox", "Inbox", "Uncategorized emails and new imports"⟩

/-- A stored row for message "m1" of account "acct-1". -/
def c2Row : Sync.EmailRow :=
  ⟨"acct-1", "m1", "cat-inbox", "hi", "alice@x", "hello body", "Email from alice@x: hi"⟩

/-- A second sync environment with a different (always failing) fetch. -/
def c2EnvB : Sync.SyncEnv := ⟨"acct-1", fun _ => none⟩

/-- A second AI oracle (no key configured). -/
def c2AiB : String → Sync.AIReply := fun _ => .noKey

/-- A user category list containing only an Inbox. -/
def c5UserCats : List Category := [⟨"cat-i", "Inbox", "d"⟩]

/-- A category to classify against in the threshold tests. -/
def recCat : Category := ⟨"cat-rec", "Receipts", "purchase confirmations"⟩

/-- Embedding oracle producing identical unit vectors (cosine 1). -/
def eHigh : Ai.EmbedOracle := fun _ => .ok [1, 0]

/-- Embedding oracle producing orthogonal unit vectors (cosine 0). -/
def eLow : Ai.EmbedOracle := fun t => if t = "email two" then .ok [1, 0] else .ok [0, 1]

/-- LLM oracle answering "1" on every call. -/
def llmOne : Ai.LLMOracle := fun _ => .ok (some "1\nbest fit")

/-- First category of the two-category list. -/
def c7CatA : Category := ⟨"cat-a", "Alpha", "a"⟩

/-- Second category of the two-category list. -/
def c7CatB : Category := ⟨"cat-b", "Beta", "b"⟩

/-- A two-category list. -/
def c7Cats : List Category := [c7CatA, c7CatB]

/-- Embedding oracle giving both categories cosine 0 against the email. -/
def c7Embed : Ai.EmbedOracle := fun t => if t = "e" then .ok [1, 0] else .ok [0, 1]

/-- LLM oracle whose first call cleanly answers "0" (no match) and whose
second call would answer "2" (a valid category). -/
def c7Llm : Ai.LLMOracle :=
  fun k => if k = 0 then .ok (some "0\nnone apply") else .ok (some "2\nfits")

/-- Embedding oracle whose every call throws. -/
def eErr : Ai.EmbedOracle := fun _ => .error "boom"

/-- LLM oracle whose every call throws. -/
def llmErr : Ai.LLMOracle := fun _ => .error "down"

/-- A three-category list for the reply-parsing tests. -/
def c8Cats : List Category :=
  [⟨"cat-1", "One", "first"⟩, ⟨"cat-2", "Two", "second"⟩, ⟨"cat-3", "Three", "third"⟩]

/-- LLM oracle answering "2" with a rationale line. -/
def llmTwo : Ai.LLMOracle := fun _ => .ok (some "2\nbecause")

/-- A Google account fixture. -/
def c6Acct : Unsub.GAcct := ⟨"a1", "a@x"⟩

/-- A stored email row joined to that account. -/
def c6Row : Unsub.URow := ⟨"e1", "m1", "Subj", some c6Acct⟩

/-- Unsubscribe environment whose account authentication throws. -/
def c6Env : Unsub.UEnv :=
  ⟨fun ids => if ids = ["e1"] then .ok [c6Row] else .ok [],
   fun _ => .error "invalid_grant",
   fun _ _ => .completes true⟩

/-- Unsubscribe environment where everything succeeds. -/
def c6EnvOk : Unsub.UEnv :=
  ⟨fun ids => if ids = ["e1"] then .ok [c6Row] else .ok [],
   fun _ => .ok (),
   fun _ _ => .completes true⟩

/-- Email content carrying a dangerous-scheme anchor and a safe anchor, both
labelled "Unsubscribe". -/
def c10Content : SpecModel.EmailContent :=
  ⟨none, [("javascript:alert(1)", "Unsubscribe"), ("https://ex.com/unsubscribe", "Unsubscribe")], []⟩

/-- Email content with no unsubscribe target at all. -/
def c3NoLink : SpecModel.EmailContent := ⟨none, [], []⟩

/-- Email content with a plain unsubscribe URL. -/
def c3HasLink : SpecModel.EmailContent := ⟨none, [], ["https://ex.com/unsubscribe?id=1"]⟩

/-- A browser oracle declaring every interaction successful. -/
def c3Browse : String → SpecModel.UStatus := fun _ => .success

/-- Decidable equality for `Except` values with decidable components (not
provided by the core library). -/
instance {e a : Type} [DecidableEq e] [DecidableEq a] : DecidableEq (Except e a) := fun x y =>
  match x, y with
  | .ok v, .ok w => if h : v = w then isTrue (by rw [h]) else isFalse (by simp [h])
  | .error v, .error w => if h : v = w then isTrue (by rw [h]) else isFalse (by simp [h])
  | .ok _, .error _ => isFalse (by simp)
  | .error _, .ok _ => isFalse (by simp)

/-! Helper lemmas. -/

lemma mem_insertDesc (x p : String × ℝ) (l : List (String × ℝ))
    (h : p ∈ Ai.insertDesc x l) : p = x ∨ p ∈ l := by
  induction l with
  | nil =>
    simp only [Ai.insertDesc, List.mem_singleton] at h
    exact Or.inl h
  | cons y ys ih =>
    simp only [Ai.insertDesc] at h
    by_cases hc : x.2 < y.2
    · rw [if_pos hc] at h
      rcases List.mem_cons.mp h with h1 | h2
      · exact Or.inr (by simp [h1])
      · rcases ih h2 with h3 | h4
        · exact Or.inl h3
        · exact Or.inr (List.mem_cons_of_mem _ h4)
    · rw [if_neg hc] at h
      rcases List.mem_cons.mp h with h1 | h2
      · exact Or.inl h1
      · exact Or.inr h2

lemma insertDesc_pairwise (x : String × ℝ) (l : List (String × ℝ))
    (h : l.Pairwise (fun a b => b.2 ≤ a.2)) :
    (Ai.insertDesc x l).Pairwise (fun a b => b.2 ≤ a.2) := by
  induction l with
  | nil => simp [Ai.insertDesc]
  | cons y ys ih =>
    rcases List.pairwise_cons.mp h with ⟨hy, hys⟩
    simp only [Ai.insertDesc]
    by_cases hc : x.2 < y.2
    · rw [if_pos hc]
      refine List.pairwise_cons.mpr ⟨?_, ih hys⟩
      intro p hp
      rcases mem_insertDesc x p ys hp with h1 | h2
      · rw [h1]; exact le_of_lt hc
      · exact hy p h2
    · rw [if_neg hc]
      refine List.pairwise_cons.mpr ⟨?_, h⟩
      intro p hp
      rcases List.mem_cons.mp hp with h1 | h2
      · rw [h1]; exact not_lt.mp hc
      · exact le_trans (hy p h2) (not_lt.mp hc)

lemma sortDesc_pairwise (l : List (String × ℝ)) :
    (Ai.sortDesc l).Pairwise (fun a b => b.2 ≤ a.2) := by
  induction l with
  | nil => simp [Ai.sortDesc]
  | cons x xs ih => exact insertDesc_pairwise x _ ih

lemma sortDesc_head_max (l : List (String × ℝ)) (top : String × ℝ)
    (rest : List (String × ℝ)) (h : Ai.sortDesc l = top :: rest)
    (p : String × ℝ) (hp : p ∈ top :: rest) : p.2 ≤ top.2 := by
  have hpw := sortDesc_pairwise l
  rw [h] at hpw
  rcases List.mem_cons.mp hp with h1 | h2
  · rw [h1]
  · exact (List.pairwise_cons.mp hpw).1 p h2

lemma cos_one_zero_same : Ai.cosineSimilarity [(1 : ℝ), 0] [(1 : ℝ), 0] = 1 := by
  simp [Ai.cosineSimilarity, Real.sqrt_one]

lemma cos_one_zero_orth : Ai.cosineSimilarity [(1 : ℝ), 0] [(0 : ℝ), 1] = 0 := by
  simp [Ai.cosineSimilarity, Real.sqrt_one]

lemma eHigh_stage :
    Ai.classifyByEmbeddings eHigh "email one" [recCat] 0.72 =
      .ok ⟨some "cat-rec", [("cat-rec", 1)], some 1⟩ := by
  simp [Ai.classifyByEmbeddings, Ai.computeScores, Ai.sortDesc, Ai.insertDesc, eHigh, recCat,
    cos_one_zero_same]
  norm_num

lemma eLow_stage :
    Ai.classifyByEmbeddings eLow "email two" [recCat] 0.72 =
      .ok ⟨none, [("cat-rec", 0)], some 0⟩ := by
  simp [Ai.classifyByEmbeddings, Ai.computeScores, Ai.sortDesc, Ai.insertDesc, eLow, recCat,
    cos_one_zero_orth]
  norm_num

/-- C4: in the classification engine, with the default threshold 0.72, the
reported top score bounds every category's score; when it reaches 0.72 the
engine returns the top-scoring category with method `embeddings` and the
result does not depend on the LLM oracle (no LLM call is made); when it is
strictly below 0.72 stage 1 returns no category and `classifyEmail`
continues with the LLM tie-break stage. -/
theorem embedding_threshold_gate
    (embed : Ai.EmbedOracle) (llm llm2 : Ai.LLMOracle) (emailText : String)
    (cats : List Category) (er : Ai.EmbedStage) (ts : ℝ)
    (hok : Ai.classifyByEmbeddings embed emailText cats 0.72 = .ok er)
    (hts : er.topScore = some ts) :
    (∀ p ∈ er.scores, p.2 ≤ ts) ∧
    ((0.72 : ℝ) ≤ ts →
      ∃ top, er.scores.head? = some top ∧ top.2 = ts ∧ er.categoryId = some top.1 ∧
        (top.1 ≠ "" →
          Ai.classifyEmail embed llm emailText cats none =
            ⟨some top.1, "embeddings", some er.scores, none⟩ ∧
          Ai.classifyEmail embed llm emailText cats none =
            Ai.classifyEmail embed llm2 emailText cats none)) ∧
    (ts < 0.72 →
      er.categoryId = none ∧
      Ai.classifyEmail embed llm emailText cats none = Ai.llmFallbackResult llm cats) := by
  have hok2 := hok
  unfold Ai.classifyByEmbeddings at hok2
  cases hemp : cats.isEmpty with
  | true =>
    rw [if_pos hemp] at hok2
    obtain rfl : Ai.EmbedStage.mk none [] none = er := by simpa using hok2
    simp at hts
  | false =>
    rw [if_neg (by simp [hemp])] at hok2
    cases hemb : embed emailText with
    | error e => simp only [hemb] at hok2; simp at hok2
    | ok emailEmb =>
      simp only [hemb] at hok2
      cases hsc : Ai.computeScores embed emailEmb cats with
      | error e => simp only [hsc] at hok2; simp at hok2
      | ok scores =>
        simp only [hsc] at hok2
        cases hsr : Ai.sortDesc scores with
        | nil =>
          simp only [hsr] at hok2
          obtain rfl : Ai.EmbedStage.mk none [] none = er := by simpa using hok2
          simp at hts
        | cons top restS =>
          simp only [hsr] at hok2
          obtain rfl :
              Ai.EmbedStage.mk (if (0.72 : ℝ) ≤ top.2 then some top.1 else none)
                (top :: restS) (some top.2) = er := by simpa using hok2
          obtain rfl : top.2 = ts := by simpa using hts
          refine ⟨?_, ?_, ?_⟩
          · intro p hp
            exact sortDesc_head_max scores top restS hsr p hp
          · intro h72
            refine ⟨top, rfl, rfl, by simp [if_pos h72], ?_⟩
            intro hne
            have hcls : Ai.classifyEmail embed llm emailText cats none =
                ⟨some top.1, "embeddings", some (top :: restS), none⟩ := by
              simp only [Ai.classifyEmail, Option.getD_none, hok]
              simp [Ai.truthy, if_pos h72, hne]
            have hcls2 : Ai.classifyEmail embed llm2 emailText cats none =
                ⟨some top.1, "embeddings", some (top :: restS), none⟩ := by
              simp only [Ai.classifyEmail, Option.getD_none, hok]
              simp [Ai.truthy, if_pos h72, hne]
            exact ⟨by simpa using hcls, by rw [hcls, hcls2]⟩
          · intro hlt
            have hgate : (if (0.72 : ℝ) ≤ top.2 then some top.1 else none) = none := by
              rw [if_neg (not_le.mpr hlt)]
            refine ⟨by simpa using hgate, ?_⟩
            simp only [Ai.classifyEmail, Option.getD_none, hok]
            simp [Ai.truthy, hgate]

/-- Witness for C4: with identical embeddings the top score is 1 ≥ 0.72 and
the engine answers with method `embeddings`; with orthogonal embeddings the
top score is 0 < 0.72 and `classifyEmail` falls through to the LLM stage. -/
theorem embedding_threshold_gate_witness :
    ((0.72 : ℝ) ≤ 1 ∧
      Ai.classifyEmail eHigh llmOne "email one" [recCat] none =
        ⟨some "cat-rec", "embeddings", some [("cat-rec", 1)], none⟩) ∧
    ((0 : ℝ) < 0.72 ∧
      Ai.classifyEmail eLow llmOne "email two" [recCat] none =
        Ai.llmFallbackResult llmOne [recCat]) := by
  constructor
  · refine ⟨by norm_num, ?_⟩
    obtain ⟨-, h2, -⟩ :=
      embedding_threshold_gate eHigh llmOne llmOne "email one" [recCat] _ 1 eHigh_stage rfl
    obtain ⟨top, hhead, hts, hcid, h3⟩ := h2 (by norm_num)
    have htop : top = ("cat-rec", (1 : ℝ)) := by simpa using hhead.symm
    obtain ⟨h4, -⟩ := h3 (by rw [htop]; decide)
    rw [h4, htop]
  · refine ⟨by norm_num, ?_⟩
    obtain ⟨-, -, h3⟩ :=
      embedding_threshold_gate eLow llmOne llmOne "email two" [recCat] _ 0 eLow_stage rfl
    exact (h3 (by norm_num)).2

lemma c7_stage :
    Ai.classifyByEmbeddings c7Embed "e" c7Cats 0.72 =
      .ok ⟨none, [("cat-a", 0), ("cat-b", 0)], some 0⟩ := by
  simp [Ai.classifyByEmbeddings, Ai.computeScores, Ai.sortDesc, Ai.insertDesc, c7Embed, c7Cats,
    c7CatA, c7CatB, cos_one_zero_orth]
  norm_num

lemma eErr_stage : Ai.classifyByEmbeddings eErr "e" c7Cats 0.72 = .error "boom" := by
  simp [Ai.classifyByEmbeddings, eErr, c7Cats]

/-- Counterexample to C7 as stated: both stages complete without error and
produce no category (the embedding stage cleanly scores below threshold, the
LLM cleanly answers "0"), a second LLM attempt would cleanly return the valid
category 2 — yet `classifyEmail` returns the null id with method `none`
without attempting the LLM stage once more. -/
theorem classify_no_second_attempt_counterexample :
    Ai.chooseCategoryWithLLM c7Llm 1 c7Cats = .ok ⟨some "cat-b", some "fits"⟩ ∧
    Ai.classifyEmail c7Embed c7Llm "e" c7Cats none =
      ⟨none, "none", none, some "none apply"⟩ := by
  constructor
  · rfl
  · simp only [Ai.classifyEmail, Option.getD_none, c7_stage]
    simp [Ai.truthy]
    rfl

/-- C7 as amended: `classifyEmail` never raises — when stage 1 throws, the
LLM stage is attempted (as the catch-branch last resort); when the first LLM
attempt throws, the LLM stage is attempted once more; when the last resort
also throws, the result is the null id with method `none`; but when both
stages complete without error and produce no category, the null id with
method `none` is returned immediately, with no further LLM attempt. -/
theorem classify_never_raises_amended
    (embed : Ai.EmbedOracle) (llm : Ai.LLMOracle) (emailText : String) (cats : List Category) :
    (∀ e, Ai.classifyByEmbeddings embed emailText cats 0.72 = .error e →
      Ai.classifyEmail embed llm emailText cats none = Ai.lastResort llm 0 cats) ∧
    (∀ er e, Ai.classifyByEmbeddings embed emailText cats 0.72 = .ok er →
      Ai.truthy er.categoryId = false →
      Ai.chooseCategoryWithLLM llm 0 cats = .error e →
      Ai.classifyEmail embed llm emailText cats none = Ai.lastResort llm 1 cats) ∧
    (∀ call e, Ai.chooseCategoryWithLLM llm call cats = .error e →
      Ai.lastResort llm call cats = ⟨none, "none", none, some e⟩) ∧
    (∀ er l, Ai.classifyByEmbeddings embed emailText cats 0.72 = .ok er →
      Ai.truthy er.categoryId = false →
      Ai.chooseCategoryWithLLM llm 0 cats = .ok l →
      Ai.truthy l.categoryId = false →
      Ai.classifyEmail embed llm emailText cats none =
        ⟨none, "none", none, some (l.reason.getD "no match")⟩) := by
  refine ⟨?_, ?_, ?_, ?_⟩
  · intro e he
    simp only [Ai.classifyEmail, Option.getD_none, he]
  · intro er e hok htr hllm
    simp only [Ai.classifyEmail, Option.getD_none, hok, htr]
    simp [Ai.llmFallbackResult, hllm]
  · intro call e he
    simp [Ai.lastResort, he]
  · intro er l hok htr hllm htl
    simp only [Ai.classifyEmail, Option.getD_none, hok, htr]
    simp [Ai.llmFallbackResult, hllm, htl]

/-- Witness for the amended C7: with an embedding oracle that always throws
and an LLM oracle that always throws, `classifyEmail` still returns a value
— the null id with method `none` carrying the last error's text. -/
theorem classify_never_raises_amended_witness :
    Ai.classifyByEmbeddings eErr "e" c7Cats 0.72 = .error "boom" ∧
    Ai.classifyEmail eErr llmErr "e" c7Cats none = ⟨none, "none", none, some "down"⟩ := by
  refine ⟨eErr_stage, ?_⟩
  obtain ⟨h1, -, h3, -⟩ := classify_never_raises_amended eErr llmErr "e" c7Cats
  rw [h1 "boom" eErr_stage, h3 0 "down" (by rfl)]

/-- C1 (code bug): when the AI call of the sync route's per-message
classification fails, the message is not routed to the reserved Inbox
category — it is routed to the first non-Inbox classification category, with
the synthesized summary; the failure is indeed swallowed (the message still
imports), but the claimed Inbox fallback does not hold. -/
theorem sync_classify_fallback_first_category_bug :
    Sync.runSync c1Env c1Ai [workCat] inboxCat [] ["m1"] =
      ([⟨"acct-1", "m1", "cat-work", "hi", "alice@x", "hello body",
          "Email from alice@x: hi"⟩], 1) ∧
    Sync.classifyEmail .failed "hi" "hello body" "alice@x" [workCat] =
      (some "cat-work", "Email from alice@x: hi") ∧
    "cat-work" ≠ inboxCat.id := by
  refine ⟨by rfl, by rfl, by decide⟩

lemma msgCount_append (S : List Sync.EmailRow) (r : Sync.EmailRow) (m : String) :
    Sync.msgCount (S ++ [r]) m =
      Sync.msgCount S m + (if r.gmail_message_id == m then 1 else 0) := by
  cases h : r.gmail_message_id == m <;>
    simp [Sync.msgCount, List.filter_append, List.filter_cons, h]

lemma pairExists_append (S : List Sync.EmailRow) (r : Sync.EmailRow) (acct m : String) :
    Sync.pairExists (S ++ [r]) acct m =
      (Sync.pairExists S acct m || (r.google_account_id == acct && r.gmail_message_id == m)) := by
  simp [Sync.pairExists, List.any_append]

lemma pair_le_msgCount (S : List Sync.EmailRow) (acct m : String)
    (h : Sync.pairExists S acct m = true) : 1 ≤ Sync.msgCount S m := by
  simp only [Sync.pairExists, List.any_eq_true, Bool.and_eq_true, beq_iff_eq] at h
  obtain ⟨r, hr, -, h2⟩ := h
  have hmem : r ∈ S.filter (fun x => x.gmail_message_id == m) :=
    List.mem_filter.mpr ⟨hr, by simp [h2]⟩
  have := List.length_pos.mpr (List.ne_nil_of_mem hmem)
  simpa [Sync.msgCount] using this

lemma inv_msgCount (S : List Sync.EmailRow) (hInv : Sync.Inv S) (m : String) :
    Sync.msgCount S m ≤ 1 := by
  induction S with
  | nil => simp [Sync.msgCount]
  | cons r rest ih =>
    rcases List.pairwise_cons.mp hInv with ⟨hr, hrest⟩
    by_cases h : r.gmail_message_id = m
    · have hzero : Sync.msgCount rest m = 0 := by
        simp only [Sync.msgCount, List.length_eq_zero, List.filter_eq_nil_iff]
        intro b hb
        have hne := hr b hb
        rw [h] at hne
        simp [hne.symm]
      have hstep : Sync.msgCount (r :: rest) m = Sync.msgCount rest m + 1 := by
        simp [Sync.msgCount, List.filter_cons, h]
      rw [hstep, hzero]
    · simpa [Sync.msgCount, List.filter_cons, h] using ih hrest

/-- Exhaustive description of one sync step: skip on a unique stored match,
record a failed fetch, reject the insert on a stored (account, message) pair,
or append one new row carrying this account id and message id. -/
lemma step_eq (env : Sync.SyncEnv) (ai : String → Sync.AIReply) (cc : List Category)
    (inbox : Category) (S : List Sync.EmailRow) (m : String) :
    (Sync.msgCount S m = 1 ∧ Sync.step env ai cc inbox S m = (S, .skipped)) ∨
    (Sync.msgCount S m ≠ 1 ∧ env.fetchMsg m = none ∧
      Sync.step env ai cc inbox S m = (S, .fetchFailed)) ∨
    (Sync.msgCount S m ≠ 1 ∧ (∃ fm, env.fetchMsg m = some fm) ∧
      Sync.pairExists S env.accountId m = true ∧
      Sync.step env ai cc inbox S m = (S, .insertFailed)) ∨
    (Sync.msgCount S m ≠ 1 ∧ Sync.pairExists S env.accountId m = false ∧
      ∃ fm, env.fetchMsg m = some fm ∧
        Sync.step env ai cc inbox S m =
          (S ++ [Sync.builtRow env ai cc inbox m fm], .imported)) := by
  by_cases h1 : Sync.msgCount S m = 1
  · exact Or.inl ⟨h1, by simp [Sync.step, h1]⟩
  · cases h2 : env.fetchMsg m with
    | none => exact Or.inr (Or.inl ⟨h1, rfl, by simp [Sync.step, h1, h2]⟩)
    | some fm =>
      by_cases h3 : Sync.pairExists S env.accountId m = true
      · exact Or.inr (Or.inr (Or.inl ⟨h1, ⟨fm, rfl⟩, h3, by simp [Sync.step, h1, h2, h3]⟩))
      · have h3f : Sync.pairExists S env.accountId m = false := by
          simpa using h3
        exact Or.inr (Or.inr (Or.inr ⟨h1, h3f, fm, rfl,
          by simp [Sync.step, h1, h2, h3f]⟩))

lemma goodAfter_establish (env : Sync.SyncEnv) (ai : String → Sync.AIReply)
    (cc : List Category) (inbox : Category) (S : List Sync.EmailRow) (m : String) :
    Sync.goodAfter env (Sync.step env ai cc inbox S m).1 m := by
  rcases step_eq env ai cc inbox S m with ⟨h1, he⟩ | ⟨h1, h2, he⟩ |
    ⟨h1, h2, h3, he⟩ | ⟨h1, h3, fm, h2, he⟩
  · rw [he]; exact Or.inl h1
  · rw [he]; exact Or.inr (Or.inl h2)
  · rw [he]; exact Or.inr (Or.inr h3)
  · rw [he]
    refine Or.inr (Or.inr ?_)
    rw [pairExists_append]
    simp [Sync.builtRow]

lemma goodAfter_preserved (env : Sync.SyncEnv) (ai : String → Sync.AIReply)
    (cc : List Category) (inbox : Category) (S : List Sync.EmailRow) (m m' : String)
    (hg : Sync.goodAfter env S m') :
    Sync.goodAfter env (Sync.step env ai cc inbox S m).1 m' := by
  rcases step_eq env ai cc inbox S m with ⟨h1, he⟩ | ⟨h1, h2, he⟩ |
    ⟨h1, h2, h3, he⟩ | ⟨h1, h3, fm, h2, he⟩
  · rw [he]; exact hg
  · rw [he]; exact hg
  · rw [he]; exact hg
  · rw [he]
    rcases hg with hc | hf | hp
    · by_cases hmm : m = m'
      · rw [hmm] at h1; exact absurd hc h1
      · refine Or.inl ?_
        rw [msgCount_append]
        have hrow : ((Sync.builtRow env ai cc inbox m fm).gmail_message_id == m') = false := by
          simp [Sync.builtRow, hmm]
        simp [hrow, hc]
    · exact Or.inr (Or.inl hf)
    · refine Or.inr (Or.inr ?_)
      rw [pairExists_append]
      simp [hp]

lemma run_fst (env : Sync.SyncEnv) (ai : String → Sync.AIReply) (cc : List Category)
    (inbox : Category) (S : List Sync.EmailRow) (m : String) (ms : List String) :
    Sync.runSync env ai cc inbox S (m :: ms) =
      ((Sync.runSync env ai cc inbox (Sync.step env ai cc inbox S m).1 ms).1,
        (if (Sync.step env ai cc inbox S m).2 = .imported then 1 else 0) +
          (Sync.runSync env ai cc inbox (Sync.step env ai cc inbox S m).1 ms).2) := by
  simp [Sync.runSync]

lemma run_preserves_good (env : Sync.SyncEnv) (ai : String → Sync.AIReply)
    (cc : List Category) (inbox : Category) (page : List String) :
    ∀ (S : List Sync.EmailRow) (m' : String), Sync.goodAfter env S m' →
      Sync.goodAfter env (Sync.runSync env ai cc inbox S page).1 m' := by
  induction page with
  | nil => intro S m' hg; exact hg
  | cons m ms ih =>
    intro S m' hg
    rw [run_fst]
    exact ih _ m' (goodAfter_preserved env ai cc inbox S m m' hg)

lemma run_establishes_good (env : Sync.SyncEnv) (ai : String → Sync.AIReply)
    (cc : List Category) (inbox : Category) (page : List String) :
    ∀ (S : List Sync.EmailRow) (m' : String), m' ∈ page →
      Sync.goodAfter env (Sync.runSync env ai cc inbox S page).1 m' := by
  induction page with
  | nil => intro S m' hm'; simp at hm'
  | cons m ms ih =>
    intro S m' hm'
    rw [run_fst]
    rcases List.mem_cons.mp hm' with h | h
    · subst h
      exact run_preserves_good env ai cc inbox ms _ m'
        (goodAfter_establish env ai cc inbox S m')
    · exact ih _ m' h

lemma run_zero_of_good (env : Sync.SyncEnv) (ai : String → Sync.AIReply)
    (cc : List Category) (inbox : Category) (page : List String) :
    ∀ (S : List Sync.EmailRow), (∀ m ∈ page, Sync.goodAfter env S m) →
      Sync.runSync env ai cc inbox S page = (S, 0) := by
  induction page with
  | nil => intro S _; rfl
  | cons m ms ih =>
    intro S hall
    have hg := hall m (List.mem_cons_self m ms)
    have hstep : Sync.step env ai cc inbox S m = (S, (Sync.step env ai cc inbox S m).2) ∧
        (Sync.step env ai cc inbox S m).2 ≠ Sync.StepOutcome.imported := by
      rcases step_eq env ai cc inbox S m with ⟨h1, he⟩ | ⟨h1, h2, he⟩ |
        ⟨h1, h2, h3, he⟩ | ⟨h1, h3, fm, h2, he⟩
      · rw [he]; exact ⟨rfl, by simp⟩
      · rw [he]; exact ⟨rfl, by simp⟩
      · rw [he]; exact ⟨rfl, by simp⟩
      · rcases hg with hc | hf | hp
        · exact absurd hc h1
        · rw [hf] at h2
          exact absurd h2 (by simp)
        · rw [h3] at hp
          exact absurd hp (by simp)
    rw [run_fst]
    have hS1 : (Sync.step env ai cc inbox S m).1 = S := by
      rw [show Sync.step env ai cc inbox S m =
        (S, (Sync.step env ai cc inbox S m).2) from hstep.1]
    rw [hS1, ih S (fun m2 hm2 => hall m2 (List.mem_cons_of_mem m hm2))]
    simp [hstep.2]

lemma step_preserves_inv (env : Sync.SyncEnv) (ai : String → Sync.AIReply)
    (cc : List Category) (inbox : Category) (S : List Sync.EmailRow) (m : String)
    (hInv : Sync.Inv S) : Sync.Inv (Sync.step env ai cc inbox S m).1 := by
  rcases step_eq env ai cc inbox S m with ⟨h1, he⟩ | ⟨h1, h2, he⟩ |
    ⟨h1, h2, h3, he⟩ | ⟨h1, h3, fm, h2, he⟩
  · rw [he]; exact hInv
  · rw [he]; exact hInv
  · rw [he]; exact hInv
  · rw [he]
    have hc0 : Sync.msgCount S m = 0 := by
      have := inv_msgCount S hInv m
      omega
    have hnone : ∀ a ∈ S, a.gmail_message_id ≠ m := by
      intro a ha hcontra
      have hmem : a ∈ S.filter (fun x => x.gmail_message_id == m) :=
        List.mem_filter.mpr ⟨ha, by simp [hcontra]⟩
      have := List.length_pos.mpr (List.ne_nil_of_mem hmem)
      simp only [Sync.msgCount] at hc0
      omega
    refine List.pairwise_append.mpr ⟨hInv, List.pairwise_singleton _ _, ?_⟩
    intro a ha b hb
    rw [List.mem_singleton.mp hb]
    exact hnone a ha

lemma run_preserves_inv (env : Sync.SyncEnv) (ai : String → Sync.AIReply)
    (cc : List Category) (inbox : Category) (page : List String) :
    ∀ (S : List Sync.EmailRow), Sync.Inv S →
      Sync.Inv (Sync.runSync env ai cc inbox S page).1 := by
  induction page with
  | nil => intro S h; exact h
  | cons m ms ih =>
    intro S h
    rw [run_fst]
    exact ih _ (step_preserves_inv env ai cc inbox S m h)

/-- C2: the duplicate guard — on storage without duplicated message ids
(the invariant the sync loop itself preserves, proven in the last conjunct),
a message whose (account id, message id) pair is already stored is skipped,
with identical outcome under arbitrary replacement of the message-fetch and
AI oracles (so the check precedes any full fetch or AI call); and running
the sync a second time over the same unchanged page imports zero records. -/
theorem sync_duplicate_guard_and_idempotence
    (env env2 : Sync.SyncEnv) (ai ai2 : String → Sync.AIReply)
    (cc : List Category) (inbox : Category)
    (S : List Sync.EmailRow) (page : List String) (m : String) :
    (Sync.Inv S → Sync.pairExists S env.accountId m = true →
      Sync.step env ai cc inbox S m = (S, .skipped) ∧
      Sync.step env2 ai2 cc inbox S m = (S, .skipped)) ∧
    (Sync.runSync env ai cc inbox (Sync.runSync env ai cc inbox S page).1 page).2 = 0 ∧
    (Sync.Inv S → Sync.Inv (Sync.runSync env ai cc inbox S page).1) := by
  refine ⟨?_, ?_, ?_⟩
  · intro hInv hpair
    have h1 : Sync.msgCount S m = 1 :=
      le_antisymm (inv_msgCount S hInv m) (pair_le_msgCount S env.accountId m hpair)
    exact ⟨by simp [Sync.step, h1], by simp [Sync.step, h1]⟩
  · have hall := run_establishes_good env ai cc inbox page
    have hz := run_zero_of_good env ai cc inbox page
      (Sync.runSync env ai cc inbox S page).1 (fun m2 hm2 => hall S m2 hm2)
    simp [hz]
  · exact fun h => run_preserves_inv env ai cc inbox page S h

/-- Witness for C2: one stored row for ("acct-1", "m1"); syncing "m1" again
is skipped under both environments, and a second full run imports zero. -/
theorem sync_duplicate_guard_and_idempotence_witness :
    Sync.Inv [c2Row] ∧ Sync.pairExists [c2Row] "acct-1" "m1" = true ∧
    Sync.step c1Env c1Ai [workCat] inboxCat [c2Row] "m1" = ([c2Row], .skipped) ∧
    Sync.step c2EnvB c2AiB [workCat] inboxCat [c2Row] "m1" = ([c2Row], .skipped) ∧
    (Sync.runSync c1Env c1Ai [workCat] inboxCat
      (Sync.runSync c1Env c1Ai [workCat] inboxCat [c2Row] ["m1"]).1 ["m1"]).2 = 0 := by
  have hInv : Sync.Inv [c2Row] := List.pairwise_singleton _ _
  have hpair : Sync.pairExists [c2Row] "acct-1" "m1" = true := by decide
  obtain ⟨h1, h2, -⟩ := sync_duplicate_guard_and_idempotence c1Env c2EnvB c1Ai c2AiB
    [workCat] inboxCat [c2Row] ["m1"] "m1"
  obtain ⟨hs1, hs2⟩ := h1 hInv (by simpa using hpair)
  exact ⟨hInv, hpair, hs1, hs2, h2⟩

lemma step_cc_nil_ai (env : Sync.SyncEnv) (ai ai2 : String → Sync.AIReply) (inbox : Category)
    (S : List Sync.EmailRow) (m : String) :
    Sync.step env ai [] inbox S m = Sync.step env ai2 [] inbox S m := by
  cases h2 : env.fetchMsg m <;> simp [Sync.step, Sync.builtRow, h2]

lemma run_cc_nil_ai (env : Sync.SyncEnv) (ai ai2 : String → Sync.AIReply) (inbox : Category)
    (page : List String) : ∀ S : List Sync.EmailRow,
    Sync.runSync env ai [] inbox S page = Sync.runSync env ai2 [] inbox S page := by
  induction page with
  | nil => intro S; rfl
  | cons m ms ih =>
    intro S
    rw [run_fst, run_fst, step_cc_nil_ai env ai ai2 inbox S m, ih]

lemma step_cc_nil_rows (env : Sync.SyncEnv) (ai : String → Sync.AIReply) (inbox : Category)
    (S : List Sync.EmailRow) (m : String) (r : Sync.EmailRow)
    (hr : r ∈ (Sync.step env ai [] inbox S m).1) :
    r ∈ S ∨ (r.category_id = inbox.id ∧
      r.summarized_text = "Email from " ++ r.from_email ++ ": " ++ r.subject) := by
  rcases step_eq env ai [] inbox S m with ⟨h1, he⟩ | ⟨h1, h2, he⟩ |
    ⟨h1, h2, h3, he⟩ | ⟨h1, h3, fm, h2, he⟩
  · rw [he] at hr; exact Or.inl hr
  · rw [he] at hr; exact Or.inl hr
  · rw [he] at hr; exact Or.inl hr
  · rw [he] at hr
    rcases List.mem_append.mp hr with h | h
    · exact Or.inl h
    · refine Or.inr ?_
      rw [List.mem_singleton.mp h]
      exact ⟨by simp [Sync.builtRow], by simp [Sync.builtRow]⟩

lemma run_cc_nil_rows (env : Sync.SyncEnv) (ai : String → Sync.AIReply) (inbox : Category)
    (page : List String) : ∀ (S : List Sync.EmailRow) (r : Sync.EmailRow),
    r ∈ (Sync.runSync env ai [] inbox S page).1 →
    r ∈ S ∨ (r.category_id = inbox.id ∧
      r.summarized_text = "Email from " ++ r.from_email ++ ": " ++ r.subject) := by
  induction page with
  | nil => intro S r hr; exact Or.inl hr
  | cons m ms ih =>
    intro S r hr
    rw [run_fst] at hr
    rcases ih (Sync.step env ai [] inbox S m).1 r hr with h | h
    · exact step_cc_nil_rows env ai inbox S m r h
    · exact Or.inr h

lemma resolveInbox_name (userCats : List Category) (newId : String) :
    (lowerStr (Sync.resolveInbox userCats newId).name == "inbox") = true := by
  unfold Sync.resolveInbox
  cases hf : userCats.find? (fun c => lowerStr c.name == "inbox") with
  | some c => simpa using List.find?_some hf
  | none => rfl

/-- C5: for a user whose only categories are named "Inbox" (so zero
non-Inbox categories survive the partition), the classification list is
empty, every freshly imported row carries the resolved Inbox category id and
the synthesized summary `"Email from {sender}: {subject}"`, and the whole
run is unchanged under arbitrary replacement of the AI oracle — no AI call
is attempted for any message of the batch. -/
theorem inbox_only_no_ai_fallback
    (env : Sync.SyncEnv) (ai ai2 : String → Sync.AIReply) (userCats : List Category)
    (newId : String) (S : List Sync.EmailRow) (page : List String)
    (honly : userCats.filter (fun c => !(lowerStr c.name == "inbox")) = []) :
    Sync.classificationCategories (Sync.allCatsOf userCats newId) = [] ∧
    (∀ r ∈ (Sync.runSync env ai
        (Sync.classificationCategories (Sync.allCatsOf userCats newId))
        (Sync.resolveInbox userCats newId) S page).1,
      r ∈ S ∨ (r.category_id = (Sync.resolveInbox userCats newId).id ∧
        r.summarized_text = "Email from " ++ r.from_email ++ ": " ++ r.subject)) ∧
    Sync.runSync env ai (Sync.classificationCategories (Sync.allCatsOf userCats newId))
        (Sync.resolveInbox userCats newId) S page =
      Sync.runSync env ai2 (Sync.classificationCategories (Sync.allCatsOf userCats newId))
        (Sync.resolveInbox userCats newId) S page := by
  have hcc : Sync.classificationCategories (Sync.allCatsOf userCats newId) = [] := by
    unfold Sync.allCatsOf Sync.classificationCategories
    by_cases hany : userCats.any (fun c => c.id == (Sync.resolveInbox userCats newId).id)
    · simpa [hany] using honly
    · rw [if_neg (by simpa using hany), List.filter_append, honly]
      simp [resolveInbox_name userCats newId]
  refine ⟨hcc, ?_, ?_⟩
  · intro r hr
    rw [hcc] at hr
    exact run_cc_nil_rows env ai (Sync.resolveInbox userCats newId) page S r hr
  · rw [hcc]
    exact run_cc_nil_ai env ai ai2 (Sync.resolveInbox userCats newId) page S

/-- Witness for C5: a user with only an "Inbox" category; the run of one
message is independent of the AI oracle, and every imported row carries the
Inbox id and the synthesized summary. -/
theorem inbox_only_no_ai_fallback_witness :
    c5UserCats.filter (fun c => !(lowerStr c.name == "inbox")) = [] ∧
    Sync.classificationCategories (Sync.allCatsOf c5UserCats "new-id") = [] ∧
    Sync.runSync c1Env c1Ai (Sync.classificationCategories (Sync.allCatsOf c5UserCats "new-id"))
        (Sync.resolveInbox c5UserCats "new-id") [] ["m1"] =
      Sync.runSync c1Env c2AiB (Sync.classificationCategories (Sync.allCatsOf c5UserCats "new-id"))
        (Sync.resolveInbox c5UserCats "new-id") [] ["m1"] ∧
    (∀ r ∈ (Sync.runSync c1Env c1Ai
        (Sync.classificationCategories (Sync.allCatsOf c5UserCats "new-id"))
        (Sync.resolveInbox c5UserCats "new-id") [] ["m1"]).1,
      r ∈ ([] : List Sync.EmailRow) ∨
        (r.category_id = (Sync.resolveInbox c5UserCats "new-id").id ∧
          r.summarized_text = "Email from " ++ r.from_email ++ ": " ++ r.subject)) := by
  have honly : c5UserCats.filter (fun c => !(lowerStr c.name == "inbox")) = [] := by decide
  obtain ⟨hcc, hrows, hai⟩ :=
    inbox_only_no_ai_fallback c1Env c1Ai c2AiB c5UserCats "new-id" [] ["m1"] honly
  exact ⟨honly, hcc, hai, hrows⟩

lemma processChunk_ok_iff (env : Unsub.UEnv) (c : List String) :
    (∃ r, Unsub.processChunk env c = .ok r) ↔ (∃ rows, env.fetchEmails c = .ok rows) := by
  constructor
  · rintro ⟨r, hr⟩
    unfold Unsub.processChunk at hr
    cases hf : env.fetchEmails c with
    | error e => simp only [hf] at hr; exact absurd hr (by simp)
    | ok rows => exact ⟨rows, rfl⟩
  · rintro ⟨rows, hf⟩
    simp only [Unsub.processChunk, hf]
    split
    · exact ⟨_, rfl⟩
    · exact ⟨_, rfl⟩

lemma runChunks_ok_iff (env : Unsub.UEnv) : ∀ cl : List (List String),
    (∃ r, Unsub.runChunks env cl = .ok r) ↔
      (∀ c ∈ cl, ∃ rows, env.fetchEmails c = .ok rows) := by
  intro cl
  induction cl with
  | nil => simp [Unsub.runChunks]
  | cons c cs ih =>
    constructor
    · rintro ⟨r, hr⟩
      unfold Unsub.runChunks at hr
      cases hpc : Unsub.processChunk env c with
      | error e => simp only [hpc] at hr; exact absurd hr (by simp)
      | ok r1 =>
        simp only [hpc] at hr
        cases hrc : Unsub.runChunks env cs with
        | error e => simp only [hrc] at hr; exact absurd hr (by simp)
        | ok r2 =>
          intro c2 hc2
          rcases List.mem_cons.mp hc2 with h | h
          · rw [h]; exact (processChunk_ok_iff env c).mp ⟨r1, hpc⟩
          · exact (ih.mp ⟨r2, hrc⟩) c2 h
    · intro hall
      obtain ⟨r1, hpc⟩ : ∃ r1, Unsub.processChunk env c = .ok r1 :=
        (processChunk_ok_iff env c).mpr (hall c (List.mem_cons_self c cs))
      obtain ⟨r2, hrc⟩ := ih.mpr (fun c2 h => hall c2 (List.mem_cons_of_mem _ h))
      exact ⟨(r1.1 + r2.1, r1.2.1 + r2.2.1, r1.2.2.1 + r2.2.2.1, r1.2.2.2 ++ r2.2.2.2),
        by simp [Unsub.runChunks, hpc, hrc]⟩

/-- Counterexample to C6 as stated: a batch whose mailbox authentication
fails (`getGoogleClient` throws "invalid_grant") does not fail fast — the
response is HTTP 200 and the failure appears only as the per-item detail
entry. -/
theorem unsubscribe_auth_failure_200_counterexample :
    c6Env.auth "a1" = .error "invalid_grant" ∧
    Unsub.POSTunsub c6Env (.arr ["e1"]) =
      .okResp ⟨0, 1, 0, 1, [⟨"e1", false, "Account error: invalid_grant", none⟩]⟩ ∧
    (Unsub.POSTunsub c6Env (.arr ["e1"])).status = 200 := by
  refine ⟨rfl, by decide, by decide⟩

/-- C6 as amended: the call fails fast exactly on a malformed request — 400
for a non-array or empty id list (decided before any oracle is consulted),
500 for an unparsable body or a thrown storage lookup; whenever the body is
a non-empty array and every batch lookup succeeds, the response is the
aggregate with HTTP status 200 (total = id count), with every per-email
failure — mailbox authentication included — contained in the details. -/
theorem unsubscribe_fail_fast_amended (env env2 : Unsub.UEnv) (body : Unsub.UBody) :
    (body = .notArray → Unsub.POSTunsub env body = .errResp 400 ∧
      Unsub.POSTunsub env2 body = .errResp 400) ∧
    (body = .arr [] → Unsub.POSTunsub env body = .errResp 400) ∧
    (body = .badJson → Unsub.POSTunsub env body = .errResp 500) ∧
    (∀ ids, body = .arr ids → ids ≠ [] →
      ((∀ c ∈ Unsub.chunks10 ids, ∃ rows, env.fetchEmails c = .ok rows) →
        ∃ agg, Unsub.POSTunsub env body = .okResp agg ∧ agg.total = ids.length) ∧
      (∀ agg, Unsub.POSTunsub env body = .okResp agg →
        ∀ c ∈ Unsub.chunks10 ids, ∃ rows, env.fetchEmails c = .ok rows)) := by
  refine ⟨?_, ?_, ?_, ?_⟩
  · rintro rfl; exact ⟨rfl, rfl⟩
  · rintro rfl; rfl
  · rintro rfl; rfl
  · rintro ids rfl hne
    have hie : ids.isEmpty = false := by simpa [List.isEmpty_iff] using hne
    constructor
    · intro hfetch
      obtain ⟨r, hr⟩ := (runChunks_ok_iff env (Unsub.chunks10 ids)).mpr hfetch
      exact ⟨⟨r.1, r.2.1, r.2.2.1, ids.length, r.2.2.2⟩,
        by simp [Unsub.POSTunsub, hie, hr], rfl⟩
    · intro agg hagg c hc
      simp only [Unsub.POSTunsub] at hagg
      rw [if_neg (by simp [hie])] at hagg
      cases hrc : Unsub.runChunks env (Unsub.chunks10 ids) with
      | error e => simp only [hrc] at hagg; exact absurd hagg (by simp)
      | ok r => exact (runChunks_ok_iff env _).mp ⟨r, hrc⟩ c hc

/-- Witness for the amended C6: concrete malformed bodies yield 400 and 500
with no oracle consulted, and a healthy one-email batch yields a 200
aggregate with total 1. -/
theorem unsubscribe_fail_fast_amended_witness :
    Unsub.POSTunsub c6Env .notArray = .errResp 400 ∧
    Unsub.POSTunsub c6Env .badJson = .errResp 500 ∧
    (∃ agg, Unsub.POSTunsub c6EnvOk (.arr ["e1"]) = .okResp agg ∧ agg.total = 1) := by
  refine ⟨((unsubscribe_fail_fast_amended c6Env c6EnvOk .notArray).1 rfl).1, ?_, ?_⟩
  · exact (unsubscribe_fail_fast_amended c6Env c6EnvOk .badJson).2.2.1 rfl
  · have h := ((unsubscribe_fail_fast_amended c6EnvOk c6Env (.arr ["e1"])).2.2.2
      ["e1"] rfl (by simp)).1
    refine h ?_
    intro c hc
    have hc1 : c = ["e1"] := by
      simpa [Unsub.chunks10, Unsub.chunks10Go] using hc
    rw [hc1]
    exact ⟨[c6Row], rfl⟩

/-- C8: with a textual reply and a non-empty category list, the LLM
tie-break never errors; its chosen category comes from the leading integer
of the reply's first line or, failing that, from the first integer anywhere
in the reply; 0, an out-of-range number or no number yield a null category
id, and a valid number n yields the n-th category of the presented list. -/
theorem llm_reply_parsing
    (llm : Ai.LLMOracle) (call : Nat) (reply : String) (cats : List Category)
    (hreply : llm call = .ok (some reply)) (hcats : cats ≠ []) :
    ∃ r, Ai.chooseCategoryWithLLM llm call cats = .ok r ∧
      r = Ai.parseChoice reply cats ∧
      (∀ n, firstLineLeading reply ≠ [] → digitsVal (firstLineLeading reply) = n →
        ((1 ≤ n ∧ n ≤ cats.length →
          ∃ c, cats.get? (n - 1) = some c ∧ r.categoryId = some c.id) ∧
         (n = 0 ∨ cats.length < n → r.categoryId = none))) ∧
      (firstLineLeading reply = [] →
        (∀ ds, firstDigitRun reply.data = some ds →
          ((1 ≤ digitsVal ds ∧ digitsVal ds ≤ cats.length →
            ∃ c, cats.get? (digitsVal ds - 1) = some c ∧ r.categoryId = some c.id) ∧
           (digitsVal ds = 0 ∨ cats.length < digitsVal ds → r.categoryId = none))) ∧
        (firstDigitRun reply.data = none → r.categoryId = none)) := by
  have hfl : leadingDigits (trimChars ((splitRN (jsTrim reply).data).headD [])) =
      firstLineLeading reply := rfl
  refine ⟨Ai.parseChoice reply cats, ?_, rfl, ?_, ?_⟩
  · unfold Ai.chooseCategoryWithLLM
    rw [if_neg (by simpa [List.isEmpty_iff] using hcats), hreply]
  · intro n hne hn
    have hldm : (firstLineLeading reply).isEmpty = false := by
      simpa [List.isEmpty_iff] using hne
    simp only [Ai.parseChoice]
    rw [hfl, if_neg (by simp [hldm]), hn]
    constructor
    · rintro ⟨h1, h2⟩
      have hidx : ¬(n = 0) := by omega
      have hrange : ¬(n < 1 ∨ n > cats.length) := by omega
      rw [if_neg hidx, if_neg hrange]
      have hlt : n - 1 < cats.length := by omega
      exact ⟨cats.get ⟨n - 1, hlt⟩, List.get?_eq_get hlt, by rw [List.get?_eq_get hlt]; rfl⟩
    · intro hout
      by_cases h0 : n = 0
      · rw [if_pos h0]
      · rw [if_neg h0, if_pos (by omega)]
  · intro hfl0
    have hldm : (firstLineLeading reply).isEmpty = true := by simp [hfl0]
    simp only [Ai.parseChoice]
    rw [hfl, if_pos (by simp [hldm])]
    constructor
    · intro ds hds
      simp only [hds]
      constructor
      · rintro ⟨h1, h2⟩
        rw [if_neg (by omega)]
        have hlt : digitsVal ds - 1 < cats.length := by omega
        exact ⟨cats.get ⟨digitsVal ds - 1, hlt⟩, List.get?_eq_get hlt,
          by rw [List.get?_eq_get hlt]; rfl⟩
      · intro hout
        rw [if_pos (by omega)]
    · intro hds
      simp only [hds]

/-- Witness for C8: reply "2" with a rationale line, three categories —
the tie-break returns the second category without an error. -/
theorem llm_reply_parsing_witness :
    Ai.chooseCategoryWithLLM llmTwo 0 c8Cats = .ok ⟨some "cat-2", some "because"⟩ ∧
    (Ai.parseChoice "2\nbecause" c8Cats).categoryId = some "cat-2" := by
  have hpc : Ai.parseChoice "2\nbecause" c8Cats = ⟨some "cat-2", some "because"⟩ := by decide
  obtain ⟨r, h1, h2, -⟩ := llm_reply_parsing llmTwo 0 "2\nbecause" c8Cats rfl (by decide)
  rw [h2] at h1
  exact ⟨by rw [h1, hpc], by rw [hpc]⟩

lemma sanitize_some (v u : String) (h : SpecModel.sanitizeUrl v = some u) :
    u = v ∧ (∃ sch, SpecModel.schemeOf u = some sch ∧ (sch = "http" ∨ sch = "https")) ∧
      ∃ hst, SpecModel.hostOf u = some hst ∧ hst ≠ "" := by
  unfold SpecModel.sanitizeUrl at h
  cases hs : SpecModel.schemeOf v with
  | none => simp [hs] at h
  | some sch =>
    simp only [hs] at h
    by_cases hhttp : (sch == "http" || sch == "https") = true
    · rw [if_pos hhttp] at h
      cases hh : SpecModel.hostOf v with
      | none => simp [hh] at h
      | some hst =>
        simp only [hh] at h
        by_cases he : (hst == "") = true
        · rw [if_pos he] at h; exact absurd h (by simp)
        · rw [if_neg he] at h
          obtain rfl : v = u := Option.some.inj h
          refine ⟨rfl, ⟨sch, hs, ?_⟩, ⟨hst, hh, by simpa using he⟩⟩
          simpa using hhttp
    · rw [if_neg hhttp] at h
      exact absurd h (by simp)

lemma pick_mem (cands : List String) (u : String)
    (h : SpecModel.pickPreferHttps cands = some u) : u ∈ cands := by
  unfold SpecModel.pickPreferHttps at h
  cases hf : cands.find? SpecModel.isHttpsUrl with
  | some v =>
    simp only [hf] at h
    obtain rfl : v = u := Option.some.inj h
    exact List.mem_of_find?_eq_some hf
  | none =>
    simp only [hf] at h
    cases cands with
    | nil => exact absurd h (by simp)
    | cons x xs =>
      obtain rfl : x = u := Option.some.inj h
      exact List.mem_cons_self x xs

lemma mem_tier_sanitized (c : SpecModel.EmailContent) (u : String)
    (h : u ∈ SpecModel.tier1 c ∨ u ∈ SpecModel.tier2 c ∨ u ∈ SpecModel.tier3 c ∨
      u ∈ SpecModel.tier4 c) :
    ∃ v, SpecModel.sanitizeUrl v = some u := by
  rcases h with h | h | h | h
  · unfold SpecModel.tier1 at h
    cases hdr : c.listUnsubscribe with
    | none => rw [hdr] at h; exact absurd h (by simp)
    | some s =>
      rw [hdr] at h
      obtain ⟨v, -, hv⟩ := List.mem_filterMap.mp h
      exact ⟨v, hv⟩
  · obtain ⟨v, -, hv⟩ := List.mem_filterMap.mp h
    exact ⟨v, hv⟩
  · obtain ⟨v, -, hv⟩ := List.mem_filterMap.mp h
    exact ⟨v, hv⟩
  · obtain ⟨v, -, hv⟩ := List.mem_filterMap.mp h
    exact ⟨v, hv⟩

/-- C10: every URL the Link Extractor returns has passed the security
filter — it parses with scheme `http` or `https` and a non-empty hostname —
so a candidate with scheme `javascript`, `data`, `file` or `vbscript` is
never returned, whatever text surrounds it. -/
theorem link_extractor_security_filter (c : SpecModel.EmailContent) (url : String)
    (h : SpecModel.linkExtractor c = some url) :
    (∃ sch, SpecModel.schemeOf url = some sch ∧ (sch = "http" ∨ sch = "https")) ∧
    (∃ hst, SpecModel.hostOf url = some hst ∧ hst ≠ "") ∧
    SpecModel.schemeOf url ≠ some "javascript" ∧
    SpecModel.schemeOf url ≠ some "data" ∧
    SpecModel.schemeOf url ≠ some "file" ∧
    SpecModel.schemeOf url ≠ some "vbscript" := by
  have hmem : url ∈ SpecModel.tier1 c ∨ url ∈ SpecModel.tier2 c ∨
      url ∈ SpecModel.tier3 c ∨ url ∈ SpecModel.tier4 c := by
    unfold SpecModel.linkExtractor at h
    cases h1 : SpecModel.pickPreferHttps (SpecModel.tier1 c) with
    | some u => simp only [h1] at h; exact Or.inl (Option.some.inj h ▸ pick_mem _ _ h1)
    | none =>
      simp only [h1] at h
      cases h2 : SpecModel.pickPreferHttps (SpecModel.tier2 c) with
      | some u =>
        simp only [h2] at h
        exact Or.inr (Or.inl (Option.some.inj h ▸ pick_mem _ _ h2))
      | none =>
        simp only [h2] at h
        cases h3 : SpecModel.pickPreferHttps (SpecModel.tier3 c) with
        | some u =>
          simp only [h3] at h
          exact Or.inr (Or.inr (Or.inl (Option.some.inj h ▸ pick_mem _ _ h3)))
        | none =>
          simp only [h3] at h
          exact Or.inr (Or.inr (Or.inr (pick_mem _ _ h)))
  obtain ⟨v, hv⟩ := mem_tier_sanitized c url hmem
  obtain ⟨-, ⟨sch, hs, hso⟩, hhost⟩ := sanitize_some v url hv
  refine ⟨⟨sch, hs, hso⟩, hhost, ?_, ?_, ?_, ?_⟩ <;>
    { rw [hs]
      rcases hso with rfl | rfl <;> simp }

/-- Witness for C10: content whose only candidates are a
`javascript:alert(1)` anchor and a safe https anchor, both labelled
"Unsubscribe" — the extractor returns the https URL, never the dangerous
one. -/
theorem link_extractor_security_filter_witness :
    SpecModel.linkExtractor c10Content = some "https://ex.com/unsubscribe" ∧
    (∃ hst, SpecModel.hostOf "https://ex.com/unsubscribe" = some hst ∧ hst ≠ "") ∧
    SpecModel.schemeOf "https://ex.com/unsubscribe" ≠ some "javascript" ∧
    SpecModel.linkExtractor c10Content ≠ some "javascript:alert(1)" := by
  have hl : SpecModel.linkExtractor c10Content = some "https://ex.com/unsubscribe" := by decide
  obtain ⟨-, hhost, hjs, -⟩ := link_extractor_security_filter c10Content _ hl
  exact ⟨hl, hhost, hjs, by rw [hl]; decide⟩

/-- C3 (engine modelled from the spec): an email for which the Link
Extractor finds no target receives the distinct terminal status `no_link` —
not `success`, not `failed` — independently of the browser oracle (no
session is opened for it), and the batch still produces one outcome for
every email. -/
theorem unsubscribe_no_link_outcome
    (browse browse2 : String → SpecModel.UStatus) (cs : List SpecModel.EmailContent) (i : Nat)
    (hno : ∃ c, cs.get? i = some c ∧ SpecModel.linkExtractor c = none) :
    (SpecModel.unsubscribeBatch browse cs).length = cs.length ∧
    (SpecModel.unsubscribeBatch browse cs).get? i = some SpecModel.UStatus.no_link ∧
    (SpecModel.unsubscribeBatch browse2 cs).get? i = some SpecModel.UStatus.no_link ∧
    SpecModel.UStatus.no_link ≠ SpecModel.UStatus.success ∧
    SpecModel.UStatus.no_link ≠ SpecModel.UStatus.failed ∧
    (∀ j cj, cs.get? j = some cj →
      (SpecModel.unsubscribeBatch browse cs).get? j =
        some (SpecModel.unsubscribeStep browse cj)) := by
  obtain ⟨c, hc, hnone⟩ := hno
  refine ⟨by simp [SpecModel.unsubscribeBatch], ?_, ?_, by decide, by decide, ?_⟩
  · unfold SpecModel.unsubscribeBatch
    rw [List.get?_map, hc]
    simp [SpecModel.unsubscribeStep, hnone]
  · unfold SpecModel.unsubscribeBatch
    rw [List.get?_map, hc]
    simp [SpecModel.unsubscribeStep, hnone]
  · intro j cj hcj
    unfold SpecModel.unsubscribeBatch
    rw [List.get?_map, hcj]
    rfl

/-- Witness for C3: a two-email batch whose first email has no target — it
is recorded `no_link` while the second email still completes. -/
theorem unsubscribe_no_link_outcome_witness :
    SpecModel.linkExtractor c3NoLink = none ∧
    SpecModel.unsubscribeBatch c3Browse [c3NoLink, c3HasLink] =
      [SpecModel.UStatus.no_link, SpecModel.UStatus.success] ∧
    (SpecModel.unsubscribeBatch c3Browse [c3NoLink, c3HasLink]).get? 0 =
      some SpecModel.UStatus.no_link := by
  have hn : SpecModel.linkExtractor c3NoLink = none := by decide
  obtain ⟨-, h2, -, -, -, -⟩ := unsubscribe_no_link_outcome c3Browse c3Browse
    [c3NoLink, c3HasLink] 0 ⟨c3NoLink, rfl, hn⟩
  exact ⟨hn, by decide, h2⟩

/-- C9 (code bug): in `summarizeEmail`'s summary regex the `\z` token is a
JavaScript identity escape matching the letter `z` (case-insensitively `Z`),
not an end-of-input anchor, so the lazily captured summary stops at the first
`z` of the section ("Freeze warning" is truncated to "Free"); the actions
parsing and the fatal error on a text-less reply behave as claimed. -/
theorem summarizer_z_truncation_bug :
    Ai.summarizeEmail (.ok (some "Summary: Freeze warning\nActions:\n- check pipes")) =
      .ok ⟨"Free", ["check pipes"]⟩ ∧
    "Free" ≠ "Freeze warning" ∧
    Ai.summarizeEmail (.ok none) = .error "No summary returned from LLM" := by
  refine ⟨by rfl, by decide, by rfl⟩

end EmailSorter
